import Mathlib

/-!
Verification development for the SpareMails backend (disposable e-mail
service).  The TypeScript source is shallowly embedded: Sequelize rows
become Lean structures, the database becomes an explicit `DBState` record
threaded through the operations, JavaScript `Date` values become integer
millisecond timestamps (`Int`), and the current instant `new Date()` is an
explicit `now : Int` parameter.  Non-deterministic inputs of the source
(`Math.random` draws, `Date.now()` file-name prefixes, `fs.writeFile`
success) are modelled as oracle function parameters.  External libraries
(`mailparser`, `smtp-server`, `multer`) are treated at their interface
boundary: the embedding starts from the parsed message shape the source
consumes.
-/

/-- Row of the `domains` table (`src/models/Domain.ts`). -/
structure Domain where
  id : Nat
  domain : String
  isActive : Bool
deriving DecidableEq

/-- Row of the `temporary_emails` table (`src/models/TemporaryEmail.ts`). -/
structure TemporaryEmail where
  id : Nat
  email : String
  domain : String
  isActive : Bool
  expiresAt : Int
deriving DecidableEq

/-- Entry of the JSON `attachments` column produced by
`EmailProcessingService.processAttachments`. -/
structure ProcessedAttachment where
  filename : String
  contentType : String
  size : Nat
  filePath : String
deriving DecidableEq

/-- Row of the `received_emails` table (`src/models/ReceivedEmail.ts`). -/
structure ReceivedEmail where
  id : Nat
  temporaryEmailId : Nat
  fromEmail : String
  fromName : Option String
  subject : String
  textContent : String
  htmlContent : String
  attachments : List ProcessedAttachment
  isRead : Bool
  receivedAt : Int
deriving DecidableEq

/-- Row of the `email_attachments` table (`src/models/EmailAttachment.ts`);
the DB-generated surrogate id is omitted, it is never read by the code
under study. -/
structure EmailAttachment where
  emailId : Nat
  filename : String
  contentType : String
  size : Nat
  filePath : String
deriving DecidableEq

/-- The whole persistent store: the four tables plus a fresh-id counter
modelling DB-generated primary keys. -/
structure DBState where
  domains : List Domain
  temps : List TemporaryEmail
  received : List ReceivedEmail
  attachments : List EmailAttachment
  nextId : Nat
deriving DecidableEq

/-- `helpers.ts` `generateExpiryDate`: `now + minutes * 60 * 1000`. -/
def generateExpiryDate (now minutes : Int) : Int :=
  now + minutes * 60 * 1000

/-- `helpers.ts` `isExpired(date)`: `new Date() > date`. -/
def isExpired (now date : Int) : Bool :=
  decide (date < now)

/-- `TemporaryEmail.isExpired()` (model method): `new Date() > this.expiresAt`. -/
def TemporaryEmail.isExpired (t : TemporaryEmail) (now : Int) : Bool :=
  decide (t.expiresAt < now)

/-- Deliverability as the ingestion pipeline actually computes it:
`findOne({email, isActive: true})` succeeds and `isExpired()` is false,
i.e. `isActive && !(now > expiresAt)`. -/
def deliverable (now : Int) (t : TemporaryEmail) : Bool :=
  t.isActive && !(t.isExpired now)

/-- `helpers.ts` `sanitizeFilename`: replace every character outside
`[a-zA-Z0-9.-]` with `_`. -/
def sanitizeFilename (filename : String) : String :=
  String.mk (filename.data.map fun c =>
    if c.isAlphanum || c == '.' || c == '-' then c else '_')

/-- `helpers.ts` `generateTemporaryEmail`: `username@domain`.  The
controller always passes the username explicitly (its own
`customName || generateRandomUsername()` draw), so the helper-internal
random fallback is never taken on the paths under study. -/
def generateTemporaryEmail (domain username : String) : String :=
  username ++ "@" ++ domain

/-- Case-insensitive literal prefix match; on success returns the rest of
the input (models the literal parts of the `gi` regexes in
`cleanHtmlContent`). -/
def matchLitCI : List Char → List Char → Option (List Char)
  | [], s => some s
  | _ :: _, [] => none
  | p :: ps, c :: cs => if p.toLower == c.toLower then matchLitCI ps cs else none

/-- JavaScript `\w` characters (for the `\b` in `<script\b` / `<iframe\b`). -/
def isWordChar (c : Char) : Bool :=
  c.isAlphanum || c == '_'

/-- Word boundary after a tag-name literal: next char is absent or non-word. -/
def boundaryOK : List Char → Bool
  | [] => true
  | c :: _ => !isWordChar c

/-- Scan for the first case-insensitive occurrence of the closing literal
and return the suffix after it (the regex `[^<]*(?:(?!<\/tag>)<[^<]*)*<\/tag>`
always ends at the first following close tag). -/
def dropThroughClose (closeT : List Char) : List Char → Option (List Char)
  | [] => none
  | c :: rest =>
    match matchLitCI closeT (c :: rest) with
    | some after => some after
    | none => dropThroughClose closeT rest

/-- One global pass of `String.replace(/<tag\b...<\/tag>/gi, '')`: scan left
to right over the original string, and whenever an open literal with word
boundary has a matching close later, drop through the close and continue
after it.  Fuel is the remaining length; every step consumes at least one
character. -/
def removeTagGo (openT closeT : List Char) : Nat → List Char → List Char
  | 0, s => s
  | _ + 1, [] => []
  | fuel + 1, c :: rest =>
    match matchLitCI openT (c :: rest) with
    | some afterOpen =>
      if boundaryOK afterOpen then
        match dropThroughClose closeT afterOpen with
        | some afterClose => removeTagGo openT closeT fuel afterClose
        | none => c :: removeTagGo openT closeT fuel rest
      else c :: removeTagGo openT closeT fuel rest
    | none => c :: removeTagGo openT closeT fuel rest

/-- Global, case-insensitive removal of a tag pair from a character list. -/
def removeTagCI (openT closeT : List Char) (s : List Char) : List Char :=
  removeTagGo openT closeT s.length s

/-- One global pass of `String.replace(/lit/gi, '')` for a plain literal
(the `javascript:` rule): non-overlapping left-to-right matches are dropped. -/
def removeLitGo (pat : List Char) : Nat → List Char → List Char
  | 0, s => s
  | _ + 1, [] => []
  | fuel + 1, c :: rest =>
    match matchLitCI pat (c :: rest) with
    | some after => removeLitGo pat fuel after
    | none => c :: removeLitGo pat fuel rest

/-- Global case-insensitive literal removal. -/
def removeLitCI (pat : List Char) (s : List Char) : List Char :=
  removeLitGo pat s.length s

/-- `helpers.ts` `cleanHtmlContent`: strip `<script...>...</script>` pairs,
then `<iframe...>...</iframe>` pairs, then `javascript:` literals, each as
one global case-insensitive pass. -/
def cleanHtmlContent (html : String) : String :=
  let s1 := removeTagCI "<script".data "</script>".data html.data
  let s2 := removeTagCI "<iframe".data "</iframe>".data s1
  String.mk (removeLitCI "javascript:".data s2)

/-- JavaScript `.` in the `extractNameFromEmail` regex (no newline class). -/
def dotOK (c : Char) : Bool :=
  !(c == '\n' || c == '\r' || c == ' ' || c == ' ')

/-- JavaScript `\s` (the whitespace characters relevant to header text). -/
def wsJS (c : Char) : Bool :=
  c == ' ' || c == '\t' || c == '\n' || c == '\r' || c == '\x0b' || c == '\x0c'

/-- Tail check for `<.+>$`: at least one dot-matchable character and a final
`>` at the very end of the string. -/
def tailOK (l : List Char) : Bool :=
  decide (2 ≤ l.length) && (l.getLast? == some '>') && l.dropLast.all dotOK

/-- Does one candidate split of `/^(.+?)\s*<.+>$/` succeed: the group so
far (`grpRev`, reversed) is dot-matchable, and the greedy `\s*` run in the
remainder is followed by `<` and a valid tail. -/
def extractNameHit (grpRev rest : List Char) : Bool :=
  grpRev.all dotOK &&
    (match rest.dropWhile wsJS with
     | '<' :: tail => tailOK tail
     | _ => false)

/-- Engine loop for `/^(.+?)\s*<.+>$/`: the lazy group grows one character
at a time until a split succeeds. -/
def extractNameGo : List Char → List Char → Option (List Char)
  | grpRev, [] => if extractNameHit grpRev [] then some grpRev.reverse else none
  | grpRev, d :: r2 =>
    if extractNameHit grpRev (d :: r2) then some grpRev.reverse
    else extractNameGo (d :: grpRev) r2

/-- `String.trim` of the captured group (whitespace stripped both ends). -/
def trimChars (l : List Char) : List Char :=
  ((l.dropWhile wsJS).reverse.dropWhile wsJS).reverse

/-- `EmailProcessingService.extractNameFromEmail`:
`email.match(/^(.+?)\s*<.+>$/)` and `match[1].trim()`. -/
def extractNameFromEmail (email : String) : Option String :=
  match email.data with
  | [] => none
  | c :: rest =>
    match extractNameGo [c] rest with
    | some grp => some (String.mk (trimChars grp))
    | none => none

/-- One attachment as handed over by `mailparser` (`content` is `none` when
the part had no payload; sizes in bytes). -/
structure Attachment where
  content : Option (List Nat)
  filename : Option String
  contentType : Option String
  size : Option Nat
deriving DecidableEq

/-- The guard at the top of the `processAttachments` loop:
`if (!attachment.content || !attachment.filename) continue;`
(an empty filename string is falsy in JavaScript). -/
def validAttachment (a : Attachment) : Bool :=
  a.content.isSome &&
    (match a.filename with
     | some f => !f.isEmpty
     | none => false)

/-- The `ProcessedAttachment` record built for one stored attachment; `ts`
is the `new Date().getTime()` value drawn for the file-name prefix, and the
attachments directory `path.join(process.cwd(), 'uploads', 'attachments')`
is rendered relative to the working directory. -/
def mkProcessed (ts : Attachment → Int) (a : Attachment) : ProcessedAttachment :=
  { filename := a.filename.getD ""
  , contentType :=
      match a.contentType with
      | some ct => if ct.isEmpty then "application/octet-stream" else ct
      | none => "application/octet-stream"
  , size :=
      match a.size with
      | some n => if n == 0 then (a.content.getD []).length else n
      | none => (a.content.getD []).length
  , filePath := "uploads/attachments/" ++ toString (ts a) ++ "_"
      ++ sanitizeFilename (a.filename.getD "") }

/-- `EmailProcessingService.processAttachments`: iterate over the parsed
attachments; skip parts without content or filename; write each remaining
part to disk (`store` models whether `fs.writeFile` succeeds — a failure is
caught, logged and the loop continues); collect the successes in order. -/
def processAttachments (store : Attachment → Bool) (ts : Attachment → Int) :
    List Attachment → List ProcessedAttachment
  | [] => []
  | a :: rest =>
    if validAttachment a then
      if store a then mkProcessed ts a :: processAttachments store ts rest
      else processAttachments store ts rest
    else processAttachments store ts rest

/-- The parsed message shape `simpleParser` hands to the pipeline;
`fromEmail`/`fromName` stand for `extractEmailAddress(parsedEmail.from)` /
`extractEmailName(parsedEmail.from)` applied to the library's address
object. -/
structure ParsedMail where
  fromEmail : String
  fromName : Option String
  subject : Option String
  text : Option String
  html : Option String
  date : Option Int
  attachments : List Attachment
deriving DecidableEq

/-- `TemporaryEmail.findOne({ where: { email, isActive: true } })`. -/
def findOneActive (temps : List TemporaryEmail) (email : String) : Option TemporaryEmail :=
  temps.find? fun t => t.email == email && t.isActive

/-- `temporaryEmail.update({ isActive: false })` — update by primary key. -/
def deactivateById (temps : List TemporaryEmail) (id : Nat) : List TemporaryEmail :=
  temps.map fun u => if u.id == id then { u with isActive := false } else u

/-- JavaScript `x || d` on an optional string (empty string is falsy). -/
def jsStr (o : Option String) (d : String) : String :=
  match o with
  | some s => if s.isEmpty then d else s
  | none => d

/-- `htmlContent ? cleanHtmlContent(htmlContent) : ''`. -/
def cleanedHtml (o : Option String) : String :=
  match o with
  | some h => if h.isEmpty then "" else cleanHtmlContent h
  | none => ""

/-- `EmailProcessingService.processIncomingEmail` after the `simpleParser`
call: look up the destination, reject unknown/inactive, reject expired
(flipping the record inactive), otherwise store the attachments, create the
`ReceivedEmail` row and bulk-create the attachment rows. -/
def processIncomingEmail (now : Int) (store : Attachment → Bool) (ts : Attachment → Int)
    (st : DBState) (recipientEmail : String) (parsed : ParsedMail) :
    DBState × Option ReceivedEmail :=
  match findOneActive st.temps recipientEmail with
  | none => (st, none)
  | some temporaryEmail =>
    if temporaryEmail.isExpired now then
      ({ st with temps := deactivateById st.temps temporaryEmail.id }, none)
    else
      let processedAttachments := processAttachments store ts parsed.attachments
      let receivedEmail : ReceivedEmail :=
        { id := st.nextId
        , temporaryEmailId := temporaryEmail.id
        , fromEmail := parsed.fromEmail
        , fromName := parsed.fromName
        , subject := jsStr parsed.subject "(No Subject)"
        , textContent := jsStr parsed.text ""
        , htmlContent := cleanedHtml parsed.html
        , attachments := processedAttachments
        , isRead := false
        , receivedAt := parsed.date.getD now }
      let attachmentRecords : List EmailAttachment := processedAttachments.map fun p =>
        { emailId := receivedEmail.id, filename := p.filename
        , contentType := p.contentType, size := p.size, filePath := p.filePath }
      ({ st with received := st.received ++ [receivedEmail]
               , attachments := st.attachments ++ attachmentRecords
               , nextId := st.nextId + 1 }, some receivedEmail)

/-- `EmailProcessingService.processWebhookEmail`: same lookup and expiry
logic; webhook attachments are not handled (`attachments: []`). -/
def processWebhookEmail (now : Int) (st : DBState) (recipientEmail fromEmail subject : String)
    (textContent htmlContent : Option String) (receivedAt : Int) :
    DBState × Option ReceivedEmail :=
  match findOneActive st.temps recipientEmail with
  | none => (st, none)
  | some temporaryEmail =>
    if temporaryEmail.isExpired now then
      ({ st with temps := deactivateById st.temps temporaryEmail.id }, none)
    else
      let receivedEmail : ReceivedEmail :=
        { id := st.nextId
        , temporaryEmailId := temporaryEmail.id
        , fromEmail := fromEmail
        , fromName := extractNameFromEmail fromEmail
        , subject := subject
        , textContent := jsStr textContent ""
        , htmlContent := cleanedHtml htmlContent
        , attachments := []
        , isRead := false
        , receivedAt := receivedAt }
      ({ st with received := st.received ++ [receivedEmail]
               , nextId := st.nextId + 1 }, some receivedEmail)

/-- The JSON body of `POST /api/webhooks/email`; `toAddr`/`sender` embed
the payload fields named `to`/`from` (Lean reserved words). -/
structure WebhookBody where
  toAddr : Option String
  sender : Option String
  subject : Option String
  text : Option String
  html : Option String
deriving DecidableEq

/-- JavaScript truthiness of an optional string field. -/
def jsTruthy (o : Option String) : Bool :=
  match o with
  | none => false
  | some s => !s.isEmpty

/-- `handleGenericWebhook`: 400 when `to` or `from` is falsy, then the
pipeline; a stored message answers with `sendSuccess` (status 200), a `null`
result answers `sendError(..., 400)`.  Returns the HTTP status and the
post-state. -/
def handleGenericWebhook (now : Int) (st : DBState) (b : WebhookBody) : Nat × DBState :=
  if !jsTruthy b.toAddr || !jsTruthy b.sender then (400, st)
  else
    let r := processWebhookEmail now st (b.toAddr.getD "") (b.sender.getD "")
      (jsStr b.subject "(No Subject)") b.text b.html now
    match r.2 with
    | some _ => (200, r.1)
    | none => (400, r.1)

/-- `availableDomains` of `createTemporaryEmail`:
`Domain.findAll({ where: { isActive: true }, attributes: ['domain'] })`. -/
def availableDomains (st : DBState) : List String :=
  (st.domains.filter (·.isActive)).map (·.domain)

/-- Domain selection: keep the requested domain when it is truthy and
present in the available list, otherwise pick
`availableDomains[floor(random * length)]` (`pickIdx` is the random draw,
reduced modulo the length). -/
def selectDomain (pickIdx : Nat) (avail : List String) (requestedDomain : Option String) : String :=
  match requestedDomain with
  | some d => if !d.isEmpty && avail.contains d then d else avail.getD (pickIdx % avail.length) ""
  | none => avail.getD (pickIdx % avail.length) ""

/-- The username used on loop attempt `i`:
`customName || generateRandomUsername()` — a falsy custom name draws a
fresh random username (`usernames i`) on every iteration, a truthy one is
reused unchanged. -/
def usernameAt (usernames : Nat → String) (customName : Option String) (i : Nat) : String :=
  match customName with
  | some c => if c.isEmpty then usernames i else c
  | none => usernames i

/-- The `do { ... } while (attempts < maxAttempts)` generation loop of
`createTemporaryEmail`: try candidate `i`; a colliding candidate advances
to the next attempt; after the last allowed attempt the loop gives up
(`none`, surfaced as the 500 "Unable to generate unique email address"). -/
def findEmailLoop (existsF : String → Bool) (cand : Nat → String) : Nat → Nat → Option String
  | _, 0 => none
  | i, r + 1 =>
    let emailAddress := cand i
    if existsF emailAddress then findEmailLoop existsF cand (i + 1) r
    else some emailAddress

/-- `TemporaryEmail.findOne({ where: { email: emailAddress } })` — the
collision check is against all stored rows, active or not. -/
def emailExists (st : DBState) (e : String) : Bool :=
  st.temps.any fun u => u.email == e

/-- Outcome of `createTemporaryEmail` (HTTP mapping: `validationError` 400,
`noDomains` 500, `exhausted` 500, `created` 201). -/
inductive CreateResult
  | validationError
  | noDomains
  | exhausted
  | created (t : TemporaryEmail)
deriving DecidableEq

/-- `temporaryEmailController.createTemporaryEmail`: validate
`expiryMinutes` (default 10) against [1, 1440], require an active domain,
select the domain, run the 10-attempt generation loop, then create the row
with `expiresAt = generateExpiryDate(expiryMinutes)`. -/
def createTemporaryEmail (now : Int) (usernames : Nat → String) (pickIdx : Nat)
    (st : DBState) (customName requestedDomain : Option String)
    (expiryMinutes : Option Int) : CreateResult × DBState :=
  let m := expiryMinutes.getD 10
  if m < 1 || m > 1440 then (CreateResult.validationError, st)
  else
    let avail := availableDomains st
    if avail.isEmpty then (CreateResult.noDomains, st)
    else
      let selectedDomain := selectDomain pickIdx avail requestedDomain
      let cand := fun i => generateTemporaryEmail selectedDomain (usernameAt usernames customName i)
      match findEmailLoop (emailExists st) cand 0 10 with
      | none => (CreateResult.exhausted, st)
      | some emailAddress =>
        let t : TemporaryEmail :=
          { id := st.nextId, email := emailAddress, domain := selectedDomain
          , isActive := true, expiresAt := generateExpiryDate now m }
        (CreateResult.created t,
         { st with temps := st.temps ++ [t], nextId := st.nextId + 1 })

/-- Outcome of `extendTemporaryEmail` (HTTP mapping: `validationError` 400,
`notFound` 404, `notActive` 400, `extended` 200). -/
inductive ExtendResult
  | validationError
  | notFound
  | notActive
  | extended (email : String) (expiresAt : Int)
deriving DecidableEq

/-- `temporaryEmailController.extendTemporaryEmail`: validate `minutes`
(default 10) against [1, 1440], find by primary key, require `isActive`
(expiry is not checked), then replace `expiresAt` with
`generateExpiryDate(minutes)`. -/
def extendTemporaryEmail (now : Int) (st : DBState) (id : Nat) (minutes : Option Int) :
    ExtendResult × DBState :=
  let m := minutes.getD 10
  if m < 1 || m > 1440 then (ExtendResult.validationError, st)
  else
    match st.temps.find? (fun u => u.id == id) with
    | none => (ExtendResult.notFound, st)
    | some t =>
      if !t.isActive then (ExtendResult.notActive, st)
      else
        let newExpiryDate := generateExpiryDate now m
        (ExtendResult.extended t.email newExpiryDate,
         { st with temps := st.temps.map fun u =>
             if u.id == t.id then { u with expiresAt := newExpiryDate } else u })

/-- Effect of the bulk sweep on one row:
`update({isActive:false}, {where: {isActive: true, expiresAt: {lt: now}}})`. -/
def sweepOne (now : Int) (t : TemporaryEmail) : TemporaryEmail :=
  if t.isActive && decide (t.expiresAt < now) then { t with isActive := false } else t

/-- `SchedulerService.cleanupExpiredEmails` (the same bulk update backs the
`POST /cleanup` controller): one criteria-based update over the table. -/
def cleanupExpiredEmails (now : Int) (temps : List TemporaryEmail) : List TemporaryEmail :=
  temps.map (sweepOne now)

/-- `getReceivedEmailById`: find by message id and owning address id; a 404
leaves the store alone; an unread hit is flipped to read
(`receivedEmail.update({ isRead: true })`, by primary key) and the updated
record is returned. -/
def getReceivedEmailById (st : DBState) (emailId msgId : Nat) :
    Option ReceivedEmail × DBState :=
  match st.received.find? (fun x => x.id == msgId && x.temporaryEmailId == emailId) with
  | none => (none, st)
  | some receivedEmail =>
    if receivedEmail.isRead then (some receivedEmail, st)
    else
      (some { receivedEmail with isRead := true },
       { st with received := st.received.map fun x =>
           if x.id == receivedEmail.id then { x with isRead := true } else x })


/-- The effect of `update({ isRead: true })` on one row: the read flag is
set, every other field is kept. -/
def markRead (x : ReceivedEmail) : ReceivedEmail :=
  ⟨x.id, x.temporaryEmailId, x.fromEmail, x.fromName, x.subject, x.textContent,
   x.htmlContent, x.attachments, true, x.receivedAt⟩

/-- An address observed exactly at its expiry instant (C2 inputs). -/
def boundaryTemp : TemporaryEmail := ⟨1, "a@b.c", "b.c", true, 100⟩

/-- Store holding only `boundaryTemp`. -/
def boundaryState : DBState := ⟨[], [boundaryTemp], [], [], 2⟩

/-- An address still flagged active whose expiry has passed (C1 inputs). -/
def expiredTemp : TemporaryEmail := ⟨1, "a@b.c", "b.c", true, 50⟩

/-- Store holding only `expiredTemp`. -/
def expiredState : DBState := ⟨[], [expiredTemp], [], [], 2⟩

/-- Webhook body addressed to the expired address. -/
def expiredBody : WebhookBody := ⟨some "a@b.c", some "x@y.z", none, none, none⟩

/-- A deliverable address (C5 inputs). -/
def liveTemp : TemporaryEmail := ⟨1, "a@b.c", "b.c", true, 100⟩

/-- Store holding only `liveTemp`. -/
def liveState : DBState := ⟨[], [liveTemp], [], [], 2⟩

/-- HTML whose inner script removal splices the surrounding text into a
new script element. -/
def spliceHtml : String := "<scri<script>foo</script>pt>evil</script>"

/-- Store with no addresses at all (C3 inputs). -/
def unknownState : DBState := ⟨[], [], [], [], 1⟩

/-- Store holding one active-but-expired address (C3 inputs). -/
def expiredState2 : DBState := ⟨[], [⟨3, "e@d.io", "d.io", true, 10⟩], [], [], 4⟩

/-- A parsed message with no optional parts and no attachments. -/
def emptyParsed : ParsedMail := ⟨"f@x.y", none, none, none, none, none, []⟩

/-- Constant username oracle (C6 inputs). -/
def usW : Nat → String := fun _ => "gen"

/-- Store with one active domain and nothing else. -/
def domState : DBState := ⟨[⟨1, "d.io", true⟩], [], [], [], 2⟩

/-- An active address whose expiry already passed (C10 inputs). -/
def extTemp : TemporaryEmail := ⟨9, "w@d.io", "d.io", true, 50⟩

/-- Store holding only `extTemp`. -/
def extState : DBState := ⟨[], [extTemp], [], [], 10⟩

/-- First attachment of the C4 witness message. -/
def wa1 : Attachment := ⟨some [1], some "a.txt", some "text/plain", some 1⟩

/-- Second attachment of the C4 witness message (its store call fails). -/
def wa2 : Attachment := ⟨some [2], some "b.txt", some "text/plain", some 1⟩

/-- Third attachment of the C4 witness message. -/
def wa3 : Attachment := ⟨some [3], some "c.txt", some "text/plain", some 1⟩

/-- Store oracle failing exactly on the attachment named `b.txt`. -/
def storeW : Attachment → Bool := fun b => !(b.filename == some "b.txt")

/-- Constant timestamp oracle for attachment file names. -/
def tsW : Attachment → Int := fun _ => 7

/-- A deliverable address (C4 inputs). -/
def attTemp : TemporaryEmail := ⟨1, "t@d.io", "d.io", true, 100⟩

/-- Store holding only `attTemp`. -/
def attState : DBState := ⟨[], [attTemp], [], [], 2⟩

/-- A parsed message carrying the three witness attachments. -/
def attParsed : ParsedMail := ⟨"f@x.y", none, some "subj", some "txt", none, some 3, [wa1, wa2, wa3]⟩

/-- Constant username oracle (C7 inputs). -/
def usC : Nat → String := fun _ => "zzz"

/-- Store where the requested address `test@d.io` already exists. -/
def colState : DBState := ⟨[⟨1, "d.io", true⟩], [⟨2, "test@d.io", "d.io", true, 1000⟩], [], [], 3⟩

/-- Store with one active domain and no addresses. -/
def freshState : DBState := ⟨[⟨1, "d.io", true⟩], [], [], [], 5⟩

/-- An unread stored message (C9 inputs). -/
def readTemp : ReceivedEmail := ⟨5, 7, "f@x.y", none, "s", "", "", [], false, 0⟩

/-- Store holding only `readTemp`. -/
def readState : DBState := ⟨[], [], [readTemp], [], 8⟩

/-- Applying the sweep effect twice to one row equals applying it once. -/
lemma sweepOne_idem (now : Int) (t : TemporaryEmail) :
    sweepOne now (sweepOne now t) = sweepOne now t := by
  unfold sweepOne
  by_cases h : (t.isActive && decide (t.expiresAt < now)) = true
  · simp [h]
  · simp [h]

/-- Field-level description of the sweep effect on one row. -/
lemma sweepOne_eq (now : Int) (t : TemporaryEmail) :
    sweepOne now t =
      ⟨t.id, t.email, t.domain, t.isActive && !decide (t.expiresAt < now), t.expiresAt⟩ := by
  unfold sweepOne
  rcases t with ⟨i, e, d, a, x⟩
  by_cases h : x < now
  · cases a <;> simp [h]
  · cases a <;> simp [h]

/-- Provisioning answers the TTL validation error, leaving the store
untouched, exactly when the requested minutes fall outside [1, 1440]. -/
lemma create_validation_iff (now : Int) (us : Nat → String) (pickIdx : Nat) (st : DBState)
    (cn rd : Option String) (em : Option Int) :
    createTemporaryEmail now us pickIdx st cn rd em = (CreateResult.validationError, st)
      ↔ (em.getD 10 < 1 ∨ em.getD 10 > 1440) := by
  unfold createTemporaryEmail
  by_cases hb : (em.getD 10 < 1 || em.getD 10 > 1440) = true
  · rw [if_pos hb]
    exact iff_of_true rfl (by simpa using hb)
  · have hr : ¬(em.getD 10 < 1 ∨ em.getD 10 > 1440) := by simpa using hb
    rw [if_neg hb]
    refine iff_of_false ?_ hr
    dsimp only
    split
    · simp
    · split <;> simp

/-- Extension answers the TTL validation error, leaving the store
untouched, exactly when the requested minutes fall outside [1, 1440]. -/
lemma extend_validation_iff (now : Int) (st : DBState) (id : Nat) (mm : Option Int) :
    extendTemporaryEmail now st id mm = (ExtendResult.validationError, st)
      ↔ (mm.getD 10 < 1 ∨ mm.getD 10 > 1440) := by
  unfold extendTemporaryEmail
  by_cases hb : (mm.getD 10 < 1 || mm.getD 10 > 1440) = true
  · rw [if_pos hb]
    exact iff_of_true rfl (by simpa using hb)
  · have hr : ¬(mm.getD 10 < 1 ∨ mm.getD 10 > 1440) := by simpa using hb
    rw [if_neg hb]
    refine iff_of_false ?_ hr
    dsimp only
    split
    · simp
    · split <;> simp

/-- When every part is valid and every store call succeeds, the processed
list is the full list in order. -/
lemma processAttachments_all_stored (store : Attachment → Bool) (ts : Attachment → Int)
    (l : List Attachment)
    (h : ∀ b ∈ l, validAttachment b = true ∧ store b = true) :
    processAttachments store ts l = l.map (mkProcessed ts) := by
  induction l with
  | nil => rfl
  | cons a rest ih =>
    have ha := h a (by simp)
    simp only [processAttachments, ha.1, ha.2, if_true, List.map_cons, List.cons.injEq, true_and]
    exact ih fun b hb => h b (List.mem_cons_of_mem a hb)

/-- A failing store call in the middle drops only that part; processing
continues and keeps everything around it. -/
lemma processAttachments_mid (store : Attachment → Bool) (ts : Attachment → Int)
    (as1 as2 : List Attachment) (a : Attachment)
    (h1 : ∀ b ∈ as1, validAttachment b = true ∧ store b = true)
    (haf : store a = false)
    (h2 : ∀ b ∈ as2, validAttachment b = true ∧ store b = true) :
    processAttachments store ts (as1 ++ a :: as2) = (as1 ++ as2).map (mkProcessed ts) := by
  induction as1 with
  | nil =>
    by_cases hv : validAttachment a = true
    · simp only [List.nil_append, processAttachments, hv, haf, if_true, if_false,
        Bool.false_eq_true]
      exact processAttachments_all_stored store ts as2 h2
    · simp only [List.nil_append, processAttachments, Bool.not_eq_true] at hv ⊢
      rw [if_neg (by simp [hv])]
      exact processAttachments_all_stored store ts as2 h2
  | cons x xs ih =>
    have hx := h1 x (by simp)
    simp only [List.cons_append, processAttachments, hx.1, hx.2, if_true, List.map_cons,
      List.cons.injEq, true_and]
    exact ih fun b hb => h1 b (List.mem_cons_of_mem x hb)

/-- A successful generation loop returns a candidate that does not collide,
drawn from the attempted window. -/
lemma findEmailLoop_some_spec (f : String → Bool) (c : Nat → String) :
    ∀ r i e, findEmailLoop f c i r = some e →
      f e = false ∧ ∃ j, i ≤ j ∧ j < i + r ∧ e = c j := by
  intro r
  induction r with
  | zero =>
    intro i e h
    simp [findEmailLoop] at h
  | succ r ih =>
    intro i e h
    by_cases hf : f (c i) = true
    · simp only [findEmailLoop, hf, if_true] at h
      obtain ⟨hfe, j, hj1, hj2, hje⟩ := ih (i + 1) e h
      exact ⟨hfe, j, by omega, by omega, hje⟩
    · simp only [findEmailLoop, hf, Bool.false_eq_true, if_false, Option.some.injEq] at h
      refine ⟨?_, i, le_refl i, by omega, h.symm⟩
      rw [← h]
      simpa using hf

/-- When every candidate in the window collides, the loop gives up. -/
lemma findEmailLoop_none_spec (f : String → Bool) (c : Nat → String) :
    ∀ r i, (∀ j, i ≤ j → j < i + r → f (c j) = true) → findEmailLoop f c i r = none := by
  intro r
  induction r with
  | zero => intro i _; rfl
  | succ r ih =>
    intro i h
    have hi : f (c i) = true := h i (le_refl i) (by omega)
    simp only [findEmailLoop, hi, if_true]
    exact ih (i + 1) fun j hj1 hj2 => h j (by omega) (by omega)

/-- `markRead` is the record update the code performs. -/
lemma markRead_eq (x : ReceivedEmail) : markRead x = { x with isRead := true } := rfl

/-- C1 counterexample: the claim says the webhook answers 410 when the
target address exists but is expired; on a store holding exactly such an
address the generic webhook answers 400, not 410 (`processWebhookEmail`
returns null for the expired case just as for the unknown case, and the
handler maps every null to `sendError(..., 400)`). -/
theorem C1_counterexample :
    (handleGenericWebhook 100 expiredState expiredBody).1 = 400
    ∧ findOneActive expiredState.temps "a@b.c" = some expiredTemp
    ∧ expiredTemp.isExpired 100 = true
    ∧ (handleGenericWebhook 100 expiredState expiredBody).1 ≠ 410 := by
  decide

/-- C1 amended: the webhook ingestion status is 200 when the message is
stored and 400 in every failure case — missing `to`/`from` fields, unknown
or inactive recipients, and also recipients that exist but are expired; the
webhook path never answers 410. -/
theorem C1_amended (now : Int) (st : DBState) (b : WebhookBody) :
    (handleGenericWebhook now st b).1 =
      if !jsTruthy b.toAddr || !jsTruthy b.sender then 400
      else
        match findOneActive st.temps (b.toAddr.getD "") with
        | some t => if t.isExpired now then 400 else 200
        | none => 400 := by
  unfold handleGenericWebhook
  by_cases hmiss : (!jsTruthy b.toAddr || !jsTruthy b.sender) = true
  · simp [hmiss]
  · have hm : (!jsTruthy b.toAddr || !jsTruthy b.sender) = false := by
      simpa using hmiss
    rw [hm]
    simp only [Bool.false_eq_true, if_false]
    cases hfind : findOneActive st.temps (b.toAddr.getD "") with
    | none => simp [processWebhookEmail, hfind]
    | some t =>
      by_cases hexp : t.isExpired now = true
      · simp [processWebhookEmail, hfind, hexp]
      · simp [processWebhookEmail, hfind, hexp]

/-- C2 counterexample: the claim says that at the boundary instant
`now == expiresAt` an address is not deliverable; the code computes expiry
as `new Date() > expiresAt`, so at the boundary the address is still
deliverable and a webhook message is in fact stored. -/
theorem C2_counterexample :
    deliverable 100 boundaryTemp = true
    ∧ boundaryTemp.isActive = true
    ∧ boundaryTemp.expiresAt = 100
    ∧ ¬((100 : Int) < boundaryTemp.expiresAt)
    ∧ (processWebhookEmail 100 boundaryState "a@b.c" "x@y.z" "s" none none 100).2.isSome = true := by
  decide

/-- C2 amended: an address is deliverable iff `active && now <= expiresAt`
(at the boundary instant it is still deliverable), and the ingestion
pipeline stores a message exactly when the looked-up recipient satisfies
this predicate, re-evaluated against the `now` of the delivery. -/
theorem C2_amended (now : Int) (t : TemporaryEmail) (st : DBState) (r fe subj : String)
    (tc hc : Option String) (ra : Int) :
    deliverable now t = (t.isActive && decide (now ≤ t.expiresAt))
    ∧ (processWebhookEmail now st r fe subj tc hc ra).2.isSome =
        (match findOneActive st.temps r with
         | some u => deliverable now u
         | none => false) := by
  constructor
  · unfold deliverable TemporaryEmail.isExpired
    congr 1
    rw [← decide_not]
    exact decide_eq_decide.mpr Int.not_lt
  · cases hfind : findOneActive st.temps r with
    | none => simp [processWebhookEmail, hfind]
    | some u =>
      have hact : u.isActive = true := by
        unfold findOneActive at hfind
        have hp := List.find?_some hfind
        simp at hp
        exact hp.2
      by_cases hexp : u.isExpired now = true
      · simp [processWebhookEmail, hfind, hexp, deliverable]
      · simp [processWebhookEmail, hfind, hexp, deliverable, hact]

/-- C3: ingestion against a non-deliverable recipient fails without
creating any Message or Attachment row: an unknown or inactive recipient
leaves the store fully unchanged, and a recipient that exists with
`active = true` but expired expiry leaves every table unchanged except for
flipping that one address to `active = false`. -/
theorem C3_reject_no_writes (now : Int) (st : DBState) (r fe subj : String)
    (tc hc : Option String) (ra : Int)
    (store : Attachment → Bool) (ts : Attachment → Int) (parsed : ParsedMail) :
    (findOneActive st.temps r = none →
       processWebhookEmail now st r fe subj tc hc ra = (st, none)
       ∧ processIncomingEmail now store ts st r parsed = (st, none))
    ∧ (∀ t, findOneActive st.temps r = some t → t.isExpired now = true →
       processWebhookEmail now st r fe subj tc hc ra
           = ({ st with temps := deactivateById st.temps t.id }, none)
       ∧ processIncomingEmail now store ts st r parsed
           = ({ st with temps := deactivateById st.temps t.id }, none)) := by
  constructor
  · intro h
    constructor
    · simp [processWebhookEmail, h]
    · simp [processIncomingEmail, h]
  · intro t hfind hexp
    constructor
    · simp [processWebhookEmail, hfind, hexp]
    · simp [processIncomingEmail, hfind, hexp]

/-- C3 witness: concrete runs of both pipeline entry points, one against
an empty store and one against an active-but-expired address. -/
theorem C3_witness :
    processWebhookEmail 0 unknownState "a@b.c" "f" "s" none none 0 = (unknownState, none)
    ∧ processIncomingEmail 20 (fun _ => true) (fun _ => 0) expiredState2 "e@d.io" emptyParsed
        = ({ expiredState2 with temps := deactivateById expiredState2.temps 3 }, none) := by
  refine ⟨((C3_reject_no_writes 0 unknownState "a@b.c" "f" "s" none none 0
      (fun _ => true) (fun _ => 0) emptyParsed).1 (by decide)).1, ?_⟩
  exact ((C3_reject_no_writes 20 expiredState2 "e@d.io" "f" "s" none none 0
      (fun _ => true) (fun _ => 0) emptyParsed).2 ⟨3, "e@d.io", "d.io", true, 10⟩
      (by decide) (by decide)).2

/-- C4: when one attachment store call fails out of N, the message is
still persisted, referencing exactly the successfully stored attachments —
the remaining N-1 in their original order. -/
theorem C4_partial_attachment_failure (now : Int) (store : Attachment → Bool)
    (ts : Attachment → Int) (st : DBState) (r : String) (parsed : ParsedMail)
    (t : TemporaryEmail) (as1 as2 : List Attachment) (a : Attachment)
    (hfind : findOneActive st.temps r = some t)
    (hnexp : t.isExpired now = false)
    (hatts : parsed.attachments = as1 ++ a :: as2)
    (h1 : ∀ b ∈ as1, validAttachment b = true ∧ store b = true)
    (ha : validAttachment a = true)
    (haf : store a = false)
    (h2 : ∀ b ∈ as2, validAttachment b = true ∧ store b = true) :
    ∃ msg, (processIncomingEmail now store ts st r parsed).2 = some msg
      ∧ (processIncomingEmail now store ts st r parsed).1.received = st.received ++ [msg]
      ∧ msg.attachments = (as1 ++ as2).map (mkProcessed ts)
      ∧ msg.attachments.length + 1 = parsed.attachments.length := by
  have hpa : processAttachments store ts parsed.attachments
      = (as1 ++ as2).map (mkProcessed ts) := by
    rw [hatts]
    exact processAttachments_mid store ts as1 as2 a h1 haf h2
  unfold processIncomingEmail
  rw [hfind]
  simp only [hnexp, Bool.false_eq_true, if_false]
  refine ⟨_, rfl, rfl, hpa, ?_⟩
  show (processAttachments store ts parsed.attachments).length + 1 = parsed.attachments.length
  rw [hpa, hatts]
  simp only [List.length_map, List.length_append, List.length_cons]
  omega

/-- C4 witness: a three-attachment message whose middle store call fails
is persisted with the first and third attachments. -/
theorem C4_witness :
    ∃ msg, (processIncomingEmail 0 storeW tsW attState "t@d.io" attParsed).2 = some msg
      ∧ (processIncomingEmail 0 storeW tsW attState "t@d.io" attParsed).1.received
          = attState.received ++ [msg]
      ∧ msg.attachments = ([wa1] ++ [wa3]).map (mkProcessed tsW)
      ∧ msg.attachments.length + 1 = attParsed.attachments.length :=
  C4_partial_attachment_failure 0 storeW tsW attState "t@d.io" attParsed attTemp
    [wa1] [wa3] wa2 (by decide) (by decide) (by decide) (by decide) (by decide)
    (by decide) (by decide)

/-- C5 (code bug): sanitization does not remove all script elements.  The
single-pass regex replacement removes the inner `<script>foo</script>` of
the splice input and thereby concatenates the surrounding text into a new
`<script>evil</script>` element, which is persisted verbatim as the HTML
body of a stored message. -/
theorem C5_sanitizer_bypass :
    cleanHtmlContent spliceHtml = "<script>evil</script>"
    ∧ List.IsInfix "<script>evil</script>".data (cleanHtmlContent spliceHtml).data
    ∧ ((processWebhookEmail 0 liveState "a@b.c" "x@y.z" "s" none (some spliceHtml) 0).2.map
        (fun m => m.htmlContent)) = some "<script>evil</script>" := by
  decide

/-- C6: provisioning and extension validate the requested TTL minutes
against the closed interval [1, 1440]: any value outside is rejected with
the validation error and no state change, any value inside is not; in
particular 1441 is rejected and 1440 is not. -/
theorem C6_ttl_validated (now : Int) (us : Nat → String) (pickIdx : Nat) (st : DBState)
    (cn rd : Option String) (em : Option Int) (id : Nat) (mm : Option Int) :
    (createTemporaryEmail now us pickIdx st cn rd em = (CreateResult.validationError, st)
       ↔ (em.getD 10 < 1 ∨ em.getD 10 > 1440))
    ∧ (extendTemporaryEmail now st id mm = (ExtendResult.validationError, st)
       ↔ (mm.getD 10 < 1 ∨ mm.getD 10 > 1440))
    ∧ createTemporaryEmail now us pickIdx st cn rd (some 1441)
        = (CreateResult.validationError, st)
    ∧ ¬(createTemporaryEmail now us pickIdx st cn rd (some 1440)
        = (CreateResult.validationError, st))
    ∧ extendTemporaryEmail now st id (some 1441) = (ExtendResult.validationError, st)
    ∧ ¬(extendTemporaryEmail now st id (some 1440) = (ExtendResult.validationError, st)) := by
  refine ⟨create_validation_iff now us pickIdx st cn rd em,
          extend_validation_iff now st id mm, ?_, ?_, ?_, ?_⟩
  · exact (create_validation_iff now us pickIdx st cn rd (some 1441)).mpr (by simp)
  · intro hc
    have h := (create_validation_iff now us pickIdx st cn rd (some 1440)).mp hc
    simp at h
  · exact (extend_validation_iff now st id (some 1441)).mpr (by simp)
  · intro hc
    have h := (extend_validation_iff now st id (some 1440)).mp hc
    simp at h

/-- C6 witness: concrete provisioning calls at 1441 (rejected, store
unchanged) and 1440 (not a validation error). -/
theorem C6_witness :
    createTemporaryEmail 0 usW 0 domState none none (some 1441)
        = (CreateResult.validationError, domState)
    ∧ ¬(createTemporaryEmail 0 usW 0 domState none none (some 1440)
        = (CreateResult.validationError, domState)) :=
  ⟨(C6_ttl_validated 0 usW 0 domState none none (some 1441) 0 (some 1441)).2.2.1,
   (C6_ttl_validated 0 usW 0 domState none none (some 1440) 0 (some 1440)).2.2.2.1⟩

/-- C7: a successful provisioning call returns an address that collides
with no stored record and whose local part comes from one of at most 10
generation attempts; when all 10 candidates collide the call fails with
the exhausted outcome and no state change. -/
theorem C7_unique_generation (now : Int) (us : Nat → String) (pickIdx : Nat) (st : DBState)
    (cn rd : Option String) (em : Option Int) (t : TemporaryEmail) (st' : DBState) :
    (createTemporaryEmail now us pickIdx st cn rd em = (CreateResult.created t, st') →
       emailExists st t.email = false
       ∧ ∃ j, j < 10 ∧ t.email = generateTemporaryEmail
           (selectDomain pickIdx (availableDomains st) rd) (usernameAt us cn j))
    ∧ (1 ≤ em.getD 10 → em.getD 10 ≤ 1440 → availableDomains st ≠ [] →
       (∀ j, j < 10 → emailExists st (generateTemporaryEmail
           (selectDomain pickIdx (availableDomains st) rd) (usernameAt us cn j)) = true) →
       createTemporaryEmail now us pickIdx st cn rd em = (CreateResult.exhausted, st)) := by
  constructor
  · intro h
    unfold createTemporaryEmail at h
    by_cases hb : (em.getD 10 < 1 || em.getD 10 > 1440) = true
    · rw [if_pos hb] at h
      exact absurd h (by simp)
    · rw [if_neg hb] at h
      dsimp only at h
      by_cases he : (availableDomains st).isEmpty = true
      · rw [if_pos he] at h
        exact absurd h (by simp)
      · rw [if_neg he] at h
        cases hloop : findEmailLoop (emailExists st)
            (fun i => generateTemporaryEmail
              (selectDomain pickIdx (availableDomains st) rd) (usernameAt us cn i)) 0 10 with
        | none =>
          rw [hloop] at h
          exact absurd h (by simp)
        | some e =>
          rw [hloop] at h
          obtain ⟨hfe, j, hj1, hj2, hje⟩ := findEmailLoop_some_spec _ _ 10 0 e hloop
          injection h with h1 h2
          injection h1 with h3
          refine ⟨?_, j, by omega, ?_⟩
          · rw [← h3]
            exact hfe
          · rw [← h3]
            exact hje
  · intro hm1 hm2 hdom hcol
    unfold createTemporaryEmail
    have hb : (em.getD 10 < 1 || em.getD 10 > 1440) = false := by
      simp
      omega
    rw [if_neg (by simp [hb])]
    dsimp only
    have he : (availableDomains st).isEmpty = false := by
      simpa [List.isEmpty_iff] using hdom
    rw [if_neg (by simp [he])]
    rw [findEmailLoop_none_spec _ _ 10 0 fun j hj1 hj2 => hcol j (by omega)]

/-- C7 witness: a fresh store yields a non-colliding address from the
attempt window; a store already holding the requested address exhausts all
10 attempts. -/
theorem C7_witness :
    (emailExists freshState "test@d.io" = false
     ∧ ∃ j, j < 10 ∧ "test@d.io" = generateTemporaryEmail
         (selectDomain 0 (availableDomains freshState) (some "d.io"))
         (usernameAt usC (some "test") j))
    ∧ createTemporaryEmail 0 usC 0 colState (some "test") (some "d.io") (some 5)
        = (CreateResult.exhausted, colState) := by
  constructor
  · exact (C7_unique_generation 0 usC 0 freshState (some "test") (some "d.io") (some 5)
      ⟨5, "test@d.io", "d.io", true, 300000⟩
      ⟨[⟨1, "d.io", true⟩], [⟨5, "test@d.io", "d.io", true, 300000⟩], [], [], 6⟩).1 (by decide)
  · exact (C7_unique_generation 0 usC 0 colState (some "test") (some "d.io") (some 5)
      ⟨0, "", "", true, 0⟩ colState).2 (by decide) (by decide) (by decide) (by decide)

/-- C8: the expiry sweep flips `active` to false exactly on the rows with
`active = true` and `expiresAt < now`, preserves every other field of every
row, and running it twice in immediate succession equals running it once. -/
theorem C8_cleanup_exact_idempotent (now : Int) (temps : List TemporaryEmail) :
    cleanupExpiredEmails now (cleanupExpiredEmails now temps) = cleanupExpiredEmails now temps
    ∧ ∀ i : Nat, (cleanupExpiredEmails now temps)[i]? =
        Option.map (fun t : TemporaryEmail =>
          ⟨t.id, t.email, t.domain, t.isActive && !decide (t.expiresAt < now), t.expiresAt⟩)
          temps[i]? := by
  constructor
  · unfold cleanupExpiredEmails
    rw [List.map_map]
    exact List.map_congr_left fun a _ => sweepOne_idem now a
  · intro i
    unfold cleanupExpiredEmails
    rw [List.getElem?_map]
    cases temps[i]? <;> simp [sweepOne_eq]

/-- C9: fetching a single received message by id mutates state: an unread
hit is flipped to read as a side effect, no other field of any row and no
other table changes, records with a different id are untouched, and a
second fetch leaves the state unchanged. -/
theorem C9_fetch_marks_read (st : DBState) (e i : Nat) :
    (getReceivedEmailById (getReceivedEmailById st e i).2 e i).2
        = (getReceivedEmailById st e i).2
    ∧ (getReceivedEmailById st e i).2.domains = st.domains
    ∧ (getReceivedEmailById st e i).2.temps = st.temps
    ∧ (getReceivedEmailById st e i).2.attachments = st.attachments
    ∧ (getReceivedEmailById st e i).2.nextId = st.nextId
    ∧ (∀ j : Nat, ((getReceivedEmailById st e i).2.received[j]?).map markRead
          = (st.received[j]?).map markRead)
    ∧ (∀ j : Nat, ∀ x, st.received[j]? = some x → (x.id == i) = false →
          (getReceivedEmailById st e i).2.received[j]? = some x)
    ∧ (∀ r, st.received.find? (fun x => x.id == i && x.temporaryEmailId == e) = some r →
          r.isRead = false →
          (getReceivedEmailById st e i).1 = some (markRead r)
          ∧ (getReceivedEmailById st e i).2.received.find?
              (fun x => x.id == i && x.temporaryEmailId == e) = some (markRead r)) := by
  cases hfind : st.received.find? (fun x => x.id == i && x.temporaryEmailId == e) with
  | none =>
    have hres : getReceivedEmailById st e i = (none, st) := by
      unfold getReceivedEmailById
      rw [hfind]
    have hsnd : (getReceivedEmailById st e i).2 = st := by rw [hres]
    refine ⟨?_, ?_, ?_, ?_, ?_, fun j => ?_, fun j x hx _ => ?_, fun r hr => ?_⟩
    · rw [hsnd]
      exact hsnd
    · rw [hsnd]
    · rw [hsnd]
    · rw [hsnd]
    · rw [hsnd]
    · rw [hsnd]
    · rw [hsnd]
      exact hx
    · exact absurd hr (by simp)
  | some r =>
    by_cases hread : r.isRead = true
    · have hres : getReceivedEmailById st e i = (some r, st) := by
        unfold getReceivedEmailById
        rw [hfind]
        dsimp only
        rw [if_pos hread]
      have hsnd : (getReceivedEmailById st e i).2 = st := by rw [hres]
      refine ⟨?_, ?_, ?_, ?_, ?_, fun j => ?_, fun j x hx _ => ?_, fun r0 hr0 hr0read => ?_⟩
      · rw [hsnd]
        exact hsnd
      · rw [hsnd]
      · rw [hsnd]
      · rw [hsnd]
      · rw [hsnd]
      · rw [hsnd]
      · rw [hsnd]
        exact hx
      · exfalso
        injection hr0 with hr0e
        rw [← hr0e] at hr0read
        rw [hr0read] at hread
        exact absurd hread (by simp)
    · have hp := List.find?_some hfind
      simp only [Bool.and_eq_true, beq_iff_eq] at hp
      have hres : getReceivedEmailById st e i
          = (some (markRead r),
             { st with received := st.received.map fun x =>
                 if x.id == r.id then { x with isRead := true } else x }) := by
        unfold getReceivedEmailById
        rw [hfind]
        simp [hread]
        rfl
      have hsnd : (getReceivedEmailById st e i).2
          = { st with received := st.received.map fun x =>
                if x.id == r.id then { x with isRead := true } else x } := by
        rw [hres]
      have hfst : (getReceivedEmailById st e i).1 = some (markRead r) := by
        rw [hres]
      have hpf : ((fun x : ReceivedEmail => x.id == i && x.temporaryEmailId == e) ∘
          fun x => if x.id == r.id then { x with isRead := true } else x)
          = fun x : ReceivedEmail => x.id == i && x.temporaryEmailId == e := by
        funext x
        simp only [Function.comp_apply]
        by_cases hx : (x.id == r.id) = true
        · rw [if_pos hx]
        · rw [if_neg hx]
      have hfind2 : (st.received.map fun x =>
            if x.id == r.id then { x with isRead := true } else x).find?
            (fun x => x.id == i && x.temporaryEmailId == e) = some (markRead r) := by
        rw [List.find?_map, hpf, hfind]
        simp only [Option.map_some']
        rw [if_pos (by simp)]
        rfl
      have hsecond : getReceivedEmailById
          { st with received := st.received.map fun x =>
              if x.id == r.id then { x with isRead := true } else x } e i
          = (some (markRead r),
             { st with received := st.received.map fun x =>
                 if x.id == r.id then { x with isRead := true } else x }) := by
        unfold getReceivedEmailById
        dsimp only
        rw [hfind2]
        rfl
      refine ⟨?_, ?_, ?_, ?_, ?_, fun j => ?_, fun j x hx hxid => ?_, fun r0 hr0 hr0read => ?_⟩
      · rw [hsnd, hsecond]
      · rw [hsnd]
      · rw [hsnd]
      · rw [hsnd]
      · rw [hsnd]
      · rw [hsnd]
        dsimp only
        rw [List.getElem?_map]
        cases st.received[j]? with
        | none => rfl
        | some x =>
          simp only [Option.map_some']
          by_cases hx : (x.id == r.id) = true
          · rw [if_pos hx]
            rfl
          · rw [if_neg hx]
      · rw [hsnd]
        dsimp only
        rw [List.getElem?_map, hx]
        simp only [Option.map_some', Option.some.injEq]
        have hxr : ¬((x.id == r.id) = true) := by
          rw [hp.1]
          simp [hxid]
        rw [if_neg hxr]
      · injection hr0 with hr0e
        rw [← hr0e]
        refine ⟨hfst, ?_⟩
        rw [hsnd]
        exact hfind2

/-- C9 witness: fetching a concrete unread message returns it marked read
and persists the flag; a second fetch is a no-op on the state. -/
theorem C9_witness :
    ((getReceivedEmailById readState 7 5).1 = some (markRead readTemp)
      ∧ (getReceivedEmailById readState 7 5).2.received.find?
          (fun x => x.id == 5 && x.temporaryEmailId == 7) = some (markRead readTemp))
    ∧ (getReceivedEmailById (getReceivedEmailById readState 7 5).2 7 5).2
        = (getReceivedEmailById readState 7 5).2 :=
  ⟨(C9_fetch_marks_read readState 7 5).2.2.2.2.2.2.2 readTemp (by decide) (by decide),
   (C9_fetch_marks_read readState 7 5).1⟩

/-- C10: extension checks only the active flag, not the expiry: an address
with `active = true` whose `expiresAt` already passed is extended with any
valid TTL to `expiresAt = now + minutes * 60 * 1000` and thereby returns to
a deliverable state. -/
theorem C10_extend_ignores_expiry (now : Int) (st : DBState) (id : Nat) (m : Int)
    (t : TemporaryEmail)
    (hfind : st.temps.find? (fun u => u.id == id) = some t)
    (hact : t.isActive = true)
    (hexp : t.expiresAt < now)
    (hm1 : 1 ≤ m) (hm2 : m ≤ 1440) :
    extendTemporaryEmail now st id (some m)
      = (ExtendResult.extended t.email (now + m * 60 * 1000),
         { st with temps := st.temps.map fun u =>
             if u.id == t.id then { u with expiresAt := now + m * 60 * 1000 } else u })
    ∧ deliverable now { t with expiresAt := now + m * 60 * 1000 } = true := by
  constructor
  · unfold extendTemporaryEmail
    have hb : (Option.getD (some m) 10 < 1 || Option.getD (some m) 10 > 1440) = false := by
      simp
      omega
    simp [hb, hfind, hact, generateExpiryDate]
    exact ⟨hm1, hm2⟩
  · simp [deliverable, TemporaryEmail.isExpired, hact]
    omega

/-- C10 witness: a concrete expired-but-active address is successfully
extended and deliverable again. -/
theorem C10_witness :
    extendTemporaryEmail 100 extState 9 (some 10)
      = (ExtendResult.extended extTemp.email (100 + 10 * 60 * 1000),
         { extState with temps := extState.temps.map fun u =>
             if u.id == extTemp.id then { u with expiresAt := 100 + 10 * 60 * 1000 } else u })
    ∧ deliverable 100 { extTemp with expiresAt := 100 + 10 * 60 * 1000 } = true :=
  C10_extend_ignores_expiry 100 extState 9 10 extTemp (by decide) (by decide) (by decide)
    (by decide) (by decide)
